import Mathlib

/-
Verification of the conformer-deduplication core of kybnmr
(calc/calculate.go): the Cluster data model, the similarity check
IsSimilarToCluster, the greedy clustering pass DoubleCheck, the
stable energy sort SortCluster, and the report of PrintClusterInFo.

Real numbers model Go float64 values (exact-real semantics; no
rounding model).  Go slice indexing that can go out of range is
modelled with Option (none = runtime panic), and DoubleCheck's
(result, error) return is modelled with Except.
-/

namespace Kybnmr

/-- An atom: element symbol plus Cartesian coordinates (type Atom in calculate.go). -/
structure Atom where
  Symbol : String
  X : ℝ
  Y : ℝ
  Z : ℝ

instance : Inhabited Atom := ⟨⟨"", 0, 0, 0⟩⟩

/-- A structure from the xyz file: ordered atoms plus an energy (type Cluster in calculate.go). -/
structure Cluster where
  Atoms : List Atom
  Energy : ℝ

instance : Inhabited Cluster := ⟨⟨[], 0⟩⟩

/-- Euclidean distance between two atoms, as computed inside
calculateDistanceMatrix: sqrt(dx*dx + dy*dy + dz*dz). -/
noncomputable def atomDist (a b : Atom) : ℝ :=
  Real.sqrt ((a.X - b.X) * (a.X - b.X) + (a.Y - b.Y) * (a.Y - b.Y) + (a.Z - b.Z) * (a.Z - b.Z))

/-- calculateDistanceMatrix: the full n x n distance matrix, zero on the
diagonal, atomDist off the diagonal. -/
noncomputable def calculateDistanceMatrix (cluster : Cluster) : List (List ℝ) :=
  (List.range cluster.Atoms.length).map fun i =>
    (List.range cluster.Atoms.length).map fun j =>
      if i = j then 0
      else atomDist (cluster.Atoms.getD i default) (cluster.Atoms.getD j default)

/-- convertToDistanceArray: flatten the strict upper triangle
(i < j, row by row, j ascending) of a distance matrix. -/
def convertToDistanceArray (distMatrix : List (List ℝ)) : List ℝ :=
  ((List.range distMatrix.length).map fun i =>
    (List.range' (i + 1) (distMatrix.length - (i + 1))).map fun j =>
      (distMatrix.getD i []).getD j 0).flatten

/-- sort.Float64s: ascending sort of a float slice (as a value-level
function any correct sort; insertion sort is used here). -/
noncomputable def sortFloats (l : List ℝ) : List ℝ :=
  l.insertionSort (· ≤ ·)

/-- The comparison used by SortCluster: energy of the first is at most
the energy of the second. -/
def clusterLE (a b : Cluster) : Prop := a.Energy ≤ b.Energy

noncomputable instance : DecidableRel clusterLE :=
  fun a b => inferInstanceAs (Decidable (a.Energy ≤ b.Energy))

instance : IsTotal Cluster clusterLE := ⟨fun a b => le_total a.Energy b.Energy⟩

instance : IsTrans Cluster clusterLE := ⟨fun _ _ _ h1 h2 => le_trans h1 h2⟩

/-- SortCluster: stable ascending sort by Energy (sort.SliceStable with
less i j = E_i < E_j); insertion sort with the non-strict comparison is
exactly such a stable sort. -/
noncomputable def SortCluster (cl : List Cluster) : List Cluster :=
  cl.insertionSort clusterLE

/-- The max-of-absolute-differences loop of IsSimilarToCluster:
maxDiff starts at 0 and the loop index runs over distArray1, reading
distArray2 at the same index; none models the index-out-of-range panic
that Go raises when distArray2 is shorter than distArray1. -/
def maxDiffLoop : List ℝ → List ℝ → Option ℝ
  | [], _ => some 0
  | _ :: _, [] => none
  | a :: l1, b :: l2 => (maxDiffLoop l1 l2).map fun m => max |a - b| m

/-- IsSimilarToCluster: energy gate first (|dE| * 627.5094 compared with
eneThreshold, returning false immediately when exceeded), then the
sorted-distance-array comparison; some b is a normal boolean return,
none is the out-of-range panic inside the comparison loop. -/
noncomputable def IsSimilarToCluster (cluster1 cluster2 : Cluster)
    (eneThreshold disThreshold : ℝ) : Option Bool :=
  let eneDiff := |cluster1.Energy - cluster2.Energy| * 627.5094
  if eneDiff > eneThreshold then some false
  else
    let distArray1 := sortFloats (convertToDistanceArray (calculateDistanceMatrix cluster1))
    let distArray2 := sortFloats (convertToDistanceArray (calculateDistanceMatrix cluster2))
    (maxDiffLoop distArray1 distArray2).map fun maxDiff =>
      if maxDiff > disThreshold then false else true

/-- The sorted pairwise-distance array of a structure, exactly the
value bound to distArray1/distArray2 inside IsSimilarToCluster. -/
noncomputable def distanceFingerprint (c : Cluster) : List ℝ :=
  sortFloats (convertToDistanceArray (calculateDistanceMatrix c))

/-- The ways the modelled DoubleCheck can fail. -/
inductive DCError where
  /-- errors.New "threshold values must be non-negative" -/
  | invalidThreshold
  /-- errors.New "empty cluster list" -/
  | emptyClusterList
  /-- runtime panic: slice index out of range inside IsSimilarToCluster -/
  | indexOutOfRange
deriving DecidableEq

/-- The inner loop of DoubleCheck over resultClusters: find the first
resultCluster similar to the candidate; on a match replace it in place
when the candidate has strictly lower energy, then break; the Bool
records the isSimilar flag. -/
noncomputable def mergeInto (eneThreshold disThreshold : ℝ) (cand : Cluster) :
    List Cluster → Except DCError (Bool × List Cluster)
  | [] => .ok (false, [])
  | r :: rs =>
    match IsSimilarToCluster cand r eneThreshold disThreshold with
    | none => .error .indexOutOfRange
    | some true => .ok (true, (if cand.Energy < r.Energy then cand else r) :: rs)
    | some false =>
      match mergeInto eneThreshold disThreshold cand rs with
      | .error e => .error e
      | .ok (found, rs') => .ok (found, r :: rs')

/-- The outer loop of DoubleCheck over clusters[1:], carrying
resultClusters; a candidate similar to nothing is appended at the end. -/
noncomputable def dcLoop (eneThreshold disThreshold : ℝ) :
    List Cluster → List Cluster → Except DCError (List Cluster)
  | [], reps => .ok reps
  | cand :: cands, reps =>
    match mergeInto eneThreshold disThreshold cand reps with
    | .error e => .error e
    | .ok (found, reps') =>
      dcLoop eneThreshold disThreshold cands (if found then reps' else reps ++ [cand])

/-- DoubleCheck: validate thresholds, reject an empty list, seed the
result with clusters[0], run the greedy pass, and return the result
sorted by energy (the in-place sort performed by PrintClusterInFo
before DoubleCheck returns resultClusters). -/
noncomputable def DoubleCheck (eneThreshold disThreshold : ℝ) (clusters : List Cluster) :
    Except DCError (List Cluster) :=
  if eneThreshold < 0 ∨ disThreshold < 0 then .error .invalidThreshold
  else
    match clusters with
    | [] => .error .emptyClusterList
    | c :: rest => (dcLoop eneThreshold disThreshold rest [c]).map SortCluster

/-- The data printed by PrintClusterInFo: after sorting by energy, for
each cluster its absolute energy and the relative energy
(E - minEnergy) * 627.51, where minEnergy is the energy of the first
(lowest) cluster after the sort. -/
noncomputable def PrintClusterInFoData (cl : List Cluster) : List (ℝ × ℝ) :=
  let sorted := SortCluster cl
  let minEnergy := (sorted.headD default).Energy
  sorted.map fun c => (c.Energy, (c.Energy - minEnergy) * 627.51)

/-- All structures of a list have the same atom count pairwise (the
one-molecule-ensemble contract of the spec). -/
def Homogeneous (clusters : List Cluster) : Prop :=
  ∀ a ∈ clusters, ∀ b ∈ clusters, a.Atoms.length = b.Atoms.length

/-- Spec-side maximum of the elementwise absolute difference of two
equal-length arrays (maximum over all indices, 0 for empty input). -/
def maxListAbsDiff (l1 l2 : List ℝ) : ℝ :=
  ((l1.zip l2).map fun p => |p.1 - p.2|).foldr max 0

/-- Spec-side similarity oracle, written from the specification text of
is_similar for the equal-atom-count case: energy short-circuit with the
627.5094 conversion, then max of elementwise fingerprint difference
compared against the distance threshold. -/
noncomputable def spec_is_similar (a b : Cluster) (e d : ℝ) : Bool :=
  if |a.Energy - b.Energy| * 627.5094 > e then false
  else
    if maxListAbsDiff (distanceFingerprint a) (distanceFingerprint b) ≤ d then true
    else false

/-- Spec-side scan of the representative list in current order for the
index of the first representative similar to the candidate. -/
noncomputable def spec_find (e d : ℝ) (cand : Cluster) : List Cluster → Option ℕ
  | [] => none
  | r :: rs =>
    if spec_is_similar cand r e d then some 0
    else (spec_find e d cand rs).map (· + 1)

/-- Spec-side merge step, written from the specification text of
double_check step 2: scan representatives in current order for the
first similar one; replace it in place iff the candidate energy is
strictly lower, otherwise discard; append when nothing matches. -/
noncomputable def spec_merge (e d : ℝ) (reps : List Cluster) (cand : Cluster) : List Cluster :=
  match spec_find e d cand reps with
  | some i => if cand.Energy < (reps.getD i default).Energy then reps.set i cand else reps
  | none => reps ++ [cand]

/-- Spec-side double_check scan: seed with the first structure, fold
the merge step over the rest, stable-sort ascending by energy. -/
noncomputable def spec_double_check (e d : ℝ) : List Cluster → List Cluster
  | [] => []
  | c :: cs => SortCluster (cs.foldl (spec_merge e d) [c])

/-- Length of the flattened strict upper triangle of an n x n matrix. -/
def fpLen (n : ℕ) : ℕ :=
  ((List.range n).map fun i => n - (i + 1)).sum

theorem convertToDistanceArray_length (m : List (List ℝ)) :
    (convertToDistanceArray m).length = fpLen m.length := by
  unfold convertToDistanceArray fpLen
  rw [List.length_flatten, List.map_map]
  congr 1
  simp [Function.comp_def]

theorem distanceFingerprint_length (c : Cluster) :
    (distanceFingerprint c).length = fpLen c.Atoms.length := by
  unfold distanceFingerprint sortFloats
  rw [List.length_insertionSort, convertToDistanceArray_length]
  congr 1
  unfold calculateDistanceMatrix
  simp

theorem maxDiffLoop_eq_some {l1 l2 : List ℝ} (h : l1.length ≤ l2.length) :
    maxDiffLoop l1 l2 = some (maxListAbsDiff l1 l2) := by
  induction l1 generalizing l2 with
  | nil => simp [maxDiffLoop, maxListAbsDiff]
  | cons a t1 ih =>
    cases l2 with
    | nil => simp at h
    | cons b t2 =>
      simp only [List.length_cons, Nat.add_le_add_iff_right] at h
      simp [maxDiffLoop, ih h, maxListAbsDiff, List.zip_cons_cons]

theorem maxDiffLoop_eq_none {l1 l2 : List ℝ} (h : l2.length < l1.length) :
    maxDiffLoop l1 l2 = none := by
  induction l1 generalizing l2 with
  | nil => simp at h
  | cons a t1 ih =>
    cases l2 with
    | nil => rfl
    | cons b t2 =>
      simp only [List.length_cons, Nat.add_lt_add_iff_right] at h
      simp [maxDiffLoop, ih h]

theorem maxListAbsDiff_comm {l1 l2 : List ℝ} (h : l1.length = l2.length) :
    maxListAbsDiff l1 l2 = maxListAbsDiff l2 l1 := by
  induction l1 generalizing l2 with
  | nil =>
    cases l2 with
    | nil => rfl
    | cons b t2 => simp at h
  | cons a t1 ih =>
    cases l2 with
    | nil => simp at h
    | cons b t2 =>
      simp only [List.length_cons, Nat.add_right_cancel_iff] at h
      show max |a - b| (maxListAbsDiff t1 t2) = max |b - a| (maxListAbsDiff t2 t1)
      rw [abs_sub_comm, ih h]

/-- The energy short-circuit of IsSimilarToCluster. -/
theorem isSimilar_of_gate {a b : Cluster} {e d : ℝ}
    (h : |a.Energy - b.Energy| * 627.5094 > e) :
    IsSimilarToCluster a b e d = some false := by
  unfold IsSimilarToCluster
  rw [if_pos h]

/-- Past the energy gate, the result of IsSimilarToCluster is the
comparison of the max elementwise fingerprint difference with the
distance threshold, provided the candidate fingerprint is no longer
than the representative one. -/
theorem isSimilar_of_le_lengths {a b : Cluster} {e d : ℝ}
    (hg : ¬ |a.Energy - b.Energy| * 627.5094 > e)
    (hl : (distanceFingerprint a).length ≤ (distanceFingerprint b).length) :
    IsSimilarToCluster a b e d =
      some (if maxListAbsDiff (distanceFingerprint a) (distanceFingerprint b) > d
            then false else true) := by
  unfold IsSimilarToCluster
  rw [if_neg hg]
  show (maxDiffLoop (distanceFingerprint a) (distanceFingerprint b)).map _ = _
  rw [maxDiffLoop_eq_some hl]
  rfl

/-- Past the energy gate, a candidate fingerprint strictly longer than
the representative one makes the comparison loop index out of range. -/
theorem isSimilar_of_lt_lengths {a b : Cluster} {e d : ℝ}
    (hg : ¬ |a.Energy - b.Energy| * 627.5094 > e)
    (hl : (distanceFingerprint b).length < (distanceFingerprint a).length) :
    IsSimilarToCluster a b e d = none := by
  unfold IsSimilarToCluster
  rw [if_neg hg]
  show (maxDiffLoop (distanceFingerprint a) (distanceFingerprint b)).map _ = _
  rw [maxDiffLoop_eq_none hl]
  rfl

/-- With equal atom counts the code similarity check never panics and
agrees with the spec-side oracle. -/
theorem isSimilar_eq_spec {a b : Cluster} {e d : ℝ}
    (h : a.Atoms.length = b.Atoms.length) :
    IsSimilarToCluster a b e d = some (spec_is_similar a b e d) := by
  have hlen : (distanceFingerprint a).length = (distanceFingerprint b).length := by
    rw [distanceFingerprint_length, distanceFingerprint_length, h]
  by_cases hg : |a.Energy - b.Energy| * 627.5094 > e
  · rw [isSimilar_of_gate hg]
    unfold spec_is_similar
    rw [if_pos hg]
  · rw [isSimilar_of_le_lengths hg (le_of_eq hlen)]
    unfold spec_is_similar
    rw [if_neg hg]
    congr 1
    by_cases hm : maxListAbsDiff (distanceFingerprint a) (distanceFingerprint b) ≤ d
    · rw [if_pos hm, if_neg (not_lt.mpr hm)]
    · rw [if_neg hm, if_pos (lt_of_not_le hm)]

theorem mergeInto_error {e d : ℝ} {cand : Cluster} {reps : List Cluster} {err : DCError}
    (h : mergeInto e d cand reps = .error err) : err = .indexOutOfRange := by
  induction reps with
  | nil => simp [mergeInto] at h
  | cons r rs ih =>
    rw [mergeInto] at h
    cases hsim : IsSimilarToCluster cand r e d with
    | none =>
      rw [hsim] at h
      simp only [Except.error.injEq] at h
      exact h.symm
    | some b =>
      rw [hsim] at h
      cases b with
      | true => simp at h
      | false =>
        cases hrec : mergeInto e d cand rs with
        | error e' =>
          rw [hrec] at h
          simp only [Except.error.injEq] at h
          exact ih (h ▸ hrec)
        | ok p =>
          obtain ⟨b', l'⟩ := p
          rw [hrec] at h
          simp at h

theorem mergeInto_ok_length {e d : ℝ} {cand : Cluster} {reps : List Cluster}
    {found : Bool} {reps' : List Cluster}
    (h : mergeInto e d cand reps = .ok (found, reps')) : reps'.length = reps.length := by
  induction reps generalizing found reps' with
  | nil =>
    rw [mergeInto] at h
    simp only [Except.ok.injEq, Prod.mk.injEq] at h
    rw [← h.2]
  | cons r rs ih =>
    rw [mergeInto] at h
    cases hsim : IsSimilarToCluster cand r e d with
    | none => rw [hsim] at h; simp at h
    | some b =>
      rw [hsim] at h
      cases b with
      | true =>
        simp only [Except.ok.injEq, Prod.mk.injEq] at h
        rw [← h.2]
        by_cases hE : cand.Energy < r.Energy <;> simp [hE]
      | false =>
        cases hrec : mergeInto e d cand rs with
        | error e' => rw [hrec] at h; simp at h
        | ok p =>
          obtain ⟨b', l'⟩ := p
          rw [hrec] at h
          simp only [Except.ok.injEq, Prod.mk.injEq] at h
          rw [← h.2]
          simp [ih hrec]

theorem mergeInto_ok_mem {e d : ℝ} {cand : Cluster} {reps : List Cluster}
    {found : Bool} {reps' : List Cluster}
    (h : mergeInto e d cand reps = .ok (found, reps')) :
    ∀ x ∈ reps', x ∈ reps ∨ x = cand := by
  induction reps generalizing found reps' with
  | nil =>
    rw [mergeInto] at h
    simp only [Except.ok.injEq, Prod.mk.injEq] at h
    rw [← h.2]
    intro x hx
    cases hx
  | cons r rs ih =>
    rw [mergeInto] at h
    cases hsim : IsSimilarToCluster cand r e d with
    | none => rw [hsim] at h; simp at h
    | some b =>
      rw [hsim] at h
      cases b with
      | true =>
        simp only [Except.ok.injEq, Prod.mk.injEq] at h
        rw [← h.2]
        intro x hx
        rcases List.mem_cons.mp hx with hx | hx
        · by_cases hE : cand.Energy < r.Energy
          · rw [if_pos hE] at hx; right; exact hx
          · rw [if_neg hE] at hx; left; simp [hx]
        · left; exact List.mem_cons_of_mem _ hx
      | false =>
        cases hrec : mergeInto e d cand rs with
        | error e' => rw [hrec] at h; simp at h
        | ok p =>
          obtain ⟨b', l'⟩ := p
          rw [hrec] at h
          simp only [Except.ok.injEq, Prod.mk.injEq] at h
          rw [← h.2]
          intro x hx
          rcases List.mem_cons.mp hx with hx | hx
          · left; simp [hx]
          · rcases ih hrec x hx with h' | h'
            · left; exact List.mem_cons_of_mem _ h'
            · right; exact h'

theorem mergeInto_false_eq {e d : ℝ} {cand : Cluster} {reps reps' : List Cluster}
    (h : mergeInto e d cand reps = .ok (false, reps')) : reps' = reps := by
  induction reps generalizing reps' with
  | nil =>
    rw [mergeInto] at h
    simp only [Except.ok.injEq, Prod.mk.injEq] at h
    exact h.2.symm
  | cons r rs ih =>
    rw [mergeInto] at h
    cases hsim : IsSimilarToCluster cand r e d with
    | none => rw [hsim] at h; simp at h
    | some b =>
      rw [hsim] at h
      cases b with
      | true => simp at h
      | false =>
        cases hrec : mergeInto e d cand rs with
        | error e' => rw [hrec] at h; simp at h
        | ok p =>
          obtain ⟨b', l'⟩ := p
          rw [hrec] at h
          simp only [Except.ok.injEq, Prod.mk.injEq] at h
          obtain ⟨hb, hl⟩ := h
          have hlr : l' = rs := ih (by rw [← hb]; exact hrec)
          rw [← hl, hlr]

theorem mergeInto_false_sim {e d : ℝ} {cand : Cluster} {reps reps' : List Cluster}
    (h : mergeInto e d cand reps = .ok (false, reps')) :
    ∀ r ∈ reps, IsSimilarToCluster cand r e d = some false := by
  induction reps generalizing reps' with
  | nil => intro r hr; cases hr
  | cons r rs ih =>
    rw [mergeInto] at h
    cases hsim : IsSimilarToCluster cand r e d with
    | none => rw [hsim] at h; simp at h
    | some b =>
      rw [hsim] at h
      cases b with
      | true => simp at h
      | false =>
        cases hrec : mergeInto e d cand rs with
        | error e' => rw [hrec] at h; simp at h
        | ok p =>
          obtain ⟨b', l'⟩ := p
          rw [hrec] at h
          simp only [Except.ok.injEq, Prod.mk.injEq] at h
          intro x hx
          rcases List.mem_cons.mp hx with hx | hx
          · rw [hx]; exact hsim
          · exact @ih l' (by rw [← h.1]; exact hrec) x hx

theorem mergeInto_of_all_false {e d : ℝ} {cand : Cluster} {reps : List Cluster}
    (h : ∀ r ∈ reps, IsSimilarToCluster cand r e d = some false) :
    mergeInto e d cand reps = .ok (false, reps) := by
  induction reps with
  | nil => rfl
  | cons r rs ih =>
    rw [mergeInto, h r (by simp), ih fun x hx => h x (List.mem_cons_of_mem _ hx)]

/-- With homogeneous atom counts the inner loop of DoubleCheck computes
exactly the spec-side first-match merge: the flag is whether some
representative matched, and the list is updated by in-place replacement
on a strictly-lower-energy candidate. -/
theorem mergeInto_eq_spec {e d : ℝ} {cand : Cluster} {reps : List Cluster}
    (h : ∀ r ∈ reps, cand.Atoms.length = r.Atoms.length) :
    mergeInto e d cand reps =
      .ok ((spec_find e d cand reps).isSome,
        match spec_find e d cand reps with
        | some i =>
          if cand.Energy < (reps.getD i default).Energy then reps.set i cand else reps
        | none => reps) := by
  induction reps with
  | nil => rfl
  | cons r rs ih =>
    have hr := @isSimilar_eq_spec cand r e d (h r (by simp))
    rw [mergeInto, hr, spec_find]
    cases hs : spec_is_similar cand r e d with
    | true =>
      simp only [if_pos rfl, Option.isSome_some]
      show Except.ok (true, (if cand.Energy < r.Energy then cand else r) :: rs) = _
      rw [apply_ite (· :: rs)]
      rfl
    | false =>
      simp only [Bool.false_eq_true, if_false]
      have hrs : ∀ x ∈ rs, cand.Atoms.length = x.Atoms.length :=
        fun x hx => h x (List.mem_cons_of_mem _ hx)
      rw [ih hrs]
      cases hsf : spec_find e d cand rs with
      | none => rfl
      | some i =>
        simp only [Option.map_some', Option.isSome_some]
        show Except.ok
            (true, r :: (if cand.Energy < (rs.getD i default).Energy then rs.set i cand else rs)) = _
        rw [apply_ite (r :: ·)]
        rfl

/-- Members of the spec-side merge result come from the old list or are
the candidate. -/
theorem spec_merge_mem {e d : ℝ} {reps : List Cluster} {cand : Cluster} :
    ∀ x ∈ spec_merge e d reps cand, x ∈ reps ∨ x = cand := by
  intro x hx
  unfold spec_merge at hx
  cases hsf : spec_find e d cand reps with
  | none =>
    rw [hsf] at hx
    simpa using List.mem_append.mp hx
  | some i =>
    rw [hsf] at hx
    simp only at hx
    by_cases hE : cand.Energy < (reps.getD i default).Energy
    · rw [if_pos hE] at hx
      exact List.mem_or_eq_of_mem_set hx
    · rw [if_neg hE] at hx
      exact Or.inl hx

theorem dcLoop_error {e d : ℝ} {cands reps : List Cluster} {err : DCError}
    (h : dcLoop e d cands reps = .error err) : err = .indexOutOfRange := by
  induction cands generalizing reps with
  | nil => simp [dcLoop] at h
  | cons cand cands ih =>
    rw [dcLoop] at h
    cases hm : mergeInto e d cand reps with
    | error e' =>
      rw [hm] at h
      simp only [Except.error.injEq] at h
      exact mergeInto_error (h ▸ hm)
    | ok p =>
      obtain ⟨b', l'⟩ := p
      rw [hm] at h
      exact ih h

theorem dcLoop_ok_mem {e d : ℝ} {cands reps res : List Cluster}
    (h : dcLoop e d cands reps = .ok res) : ∀ x ∈ res, x ∈ reps ∨ x ∈ cands := by
  induction cands generalizing reps with
  | nil =>
    rw [dcLoop] at h
    simp only [Except.ok.injEq] at h
    intro x hx
    exact Or.inl (h ▸ hx)
  | cons cand cands ih =>
    rw [dcLoop] at h
    cases hm : mergeInto e d cand reps with
    | error e' => rw [hm] at h; simp at h
    | ok p =>
      obtain ⟨b', l'⟩ := p
      rw [hm] at h
      intro x hx
      rcases ih h x hx with h' | h'
      · cases b' with
        | true =>
          simp only [if_pos rfl] at h'
          rcases mergeInto_ok_mem hm x h' with h'' | h''
          · exact Or.inl h''
          · exact Or.inr (h'' ▸ List.mem_cons_self _ _)
        | false =>
          simp only [Bool.false_eq_true, if_false] at h'
          rcases List.mem_append.mp h' with h'' | h''
          · exact Or.inl h''
          · simp only [List.mem_singleton] at h''
            exact Or.inr (h'' ▸ List.mem_cons_self _ _)
      · exact Or.inr (List.mem_cons_of_mem _ h')

theorem dcLoop_ok_length {e d : ℝ} {cands reps res : List Cluster}
    (h : dcLoop e d cands reps = .ok res) :
    reps.length ≤ res.length ∧ res.length ≤ reps.length + cands.length := by
  induction cands generalizing reps with
  | nil =>
    rw [dcLoop] at h
    simp only [Except.ok.injEq] at h
    rw [h]
    omega
  | cons cand cands ih =>
    rw [dcLoop] at h
    cases hm : mergeInto e d cand reps with
    | error e' => rw [hm] at h; simp at h
    | ok p =>
      obtain ⟨b', l'⟩ := p
      rw [hm] at h
      have := ih h
      cases b' with
      | true =>
        simp at this
        have hlen := mergeInto_ok_length hm
        simp only [List.length_cons]
        omega
      | false =>
        simp [List.length_append] at this
        simp only [List.length_cons]
        omega

/-- With homogeneous atom counts the outer loop of DoubleCheck never
panics and computes the spec-side left fold of the merge step. -/
theorem dcLoop_eq_spec {e d : ℝ} {n : ℕ} {cands reps : List Cluster}
    (hreps : ∀ r ∈ reps, r.Atoms.length = n) (hcands : ∀ c ∈ cands, c.Atoms.length = n) :
    dcLoop e d cands reps = .ok (cands.foldl (spec_merge e d) reps) := by
  induction cands generalizing reps with
  | nil => rfl
  | cons cand cands ih =>
    have hc : cand.Atoms.length = n := hcands cand (by simp)
    have hlen : ∀ r ∈ reps, cand.Atoms.length = r.Atoms.length :=
      fun r hr => by rw [hc, hreps r hr]
    rw [dcLoop, mergeInto_eq_spec hlen]
    show dcLoop e d cands
        (if (spec_find e d cand reps).isSome then _ else reps ++ [cand]) = _
    have hmerge :
        (if (spec_find e d cand reps).isSome then
          match spec_find e d cand reps with
          | some i =>
            if cand.Energy < (reps.getD i default).Energy then reps.set i cand else reps
          | none => reps
        else reps ++ [cand]) = spec_merge e d reps cand := by
      unfold spec_merge
      cases spec_find e d cand reps with
      | none => rfl
      | some i => rfl
    rw [hmerge, List.foldl_cons]
    apply ih
    · intro r hr
      rcases spec_merge_mem r hr with h' | h'
      · exact hreps r h'
      · rw [h']; exact hc
    · exact fun c hc' => hcands c (List.mem_cons_of_mem _ hc')

theorem SortCluster_sorted (cl : List Cluster) : List.Sorted clusterLE (SortCluster cl) :=
  List.sorted_insertionSort clusterLE cl

theorem SortCluster_perm (cl : List Cluster) : (SortCluster cl).Perm cl :=
  List.perm_insertionSort clusterLE cl

theorem SortCluster_eq_of_sorted {cl : List Cluster} (h : List.Sorted clusterLE cl) :
    SortCluster cl = cl :=
  h.insertionSort_eq

/-- Stability of SortCluster: the sublist of clusters at any fixed
energy is exactly the one of the input, in the same order. -/
theorem SortCluster_filter_energy (cl : List Cluster) (E : ℝ) :
    (SortCluster cl).filter (fun c => decide (c.Energy = E)) =
      cl.filter (fun c => decide (c.Energy = E)) := by
  induction cl with
  | nil => rfl
  | cons a l ih =>
    show (List.orderedInsert clusterLE a (SortCluster l)).filter _ = _
    rw [List.orderedInsert_eq_take_drop, List.filter_append, List.filter_cons]
    have hsplit : ((SortCluster l).takeWhile fun b => decide ¬ clusterLE a b).filter
          (fun c => decide (c.Energy = E)) ++
        ((SortCluster l).dropWhile fun b => decide ¬ clusterLE a b).filter
          (fun c => decide (c.Energy = E)) =
        l.filter (fun c => decide (c.Energy = E)) := by
      rw [← List.filter_append, List.takeWhile_append_dropWhile _ _, ih]
    by_cases hE : a.Energy = E
    · have htake : ((SortCluster l).takeWhile fun b => decide ¬ clusterLE a b).filter
          (fun c => decide (c.Energy = E)) = [] := by
        rw [List.filter_eq_nil_iff]
        intro b hb
        have hdec := @List.mem_takeWhile_imp Cluster (fun x => decide ¬ clusterLE a x) _ b hb
        have hlt : ¬ clusterLE a b := of_decide_eq_true hdec
        have : b.Energy < a.Energy := lt_of_not_le hlt
        simp only [decide_eq_true_eq]
        intro hbe
        rw [hbe, hE] at this
        exact absurd this (lt_irrefl E)
      rw [htake, List.nil_append] at hsplit
      rw [htake, if_pos (by simp [hE]), List.filter_cons, if_pos (by simp [hE])]
      rw [List.nil_append, hsplit]
    · rw [if_neg (by simp [hE]), List.filter_cons, if_neg (by simp [hE])]
      exact hsplit

/-- The first element after SortCluster has the minimum energy. -/
theorem SortCluster_head_min {cl : List Cluster} (h : cl ≠ []) :
    ∀ c ∈ cl, ((SortCluster cl).headD default).Energy ≤ c.Energy := by
  intro c hc
  have hperm := SortCluster_perm cl
  cases hs : SortCluster cl with
  | nil =>
    rw [hs] at hperm
    exact absurd (hperm.symm.eq_nil) h
  | cons a t =>
    have hmem : c ∈ a :: t := by
      rw [← hs]
      exact (SortCluster_perm cl).mem_iff.mpr hc
    have hsorted : List.Sorted clusterLE (a :: t) := hs ▸ SortCluster_sorted cl
    rcases List.mem_cons.mp hmem with h' | h'
    · rw [h']; exact le_refl _
    · exact List.rel_of_sorted_cons hsorted c h'

/-- Similarity is symmetric for equal atom counts. -/
theorem isSimilar_symm {a b : Cluster} {e d : ℝ} (h : a.Atoms.length = b.Atoms.length) :
    IsSimilarToCluster a b e d = IsSimilarToCluster b a e d := by
  rw [isSimilar_eq_spec h, isSimilar_eq_spec h.symm]
  have hlen : (distanceFingerprint a).length = (distanceFingerprint b).length := by
    rw [distanceFingerprint_length, distanceFingerprint_length, h]
  unfold spec_is_similar
  rw [abs_sub_comm, maxListAbsDiff_comm hlen]

theorem spec_find_eq_none {e d : ℝ} {cand : Cluster} {reps : List Cluster}
    (h : spec_find e d cand reps = none) :
    ∀ r ∈ reps, spec_is_similar cand r e d = false := by
  induction reps with
  | nil => intro r hr; cases hr
  | cons r rs ih =>
    rw [spec_find] at h
    intro x hx
    cases hs : spec_is_similar cand r e d with
    | true => rw [hs] at h; simp at h
    | false =>
      rw [hs] at h
      simp only [Bool.false_eq_true, if_false, Option.map_eq_none'] at h
      rcases List.mem_cons.mp hx with hx | hx
      · rw [hx]; exact hs
      · exact ih h x hx

theorem spec_find_some_lt {e d : ℝ} {cand : Cluster} {reps : List Cluster} {i : ℕ}
    (h : spec_find e d cand reps = some i) : i < reps.length := by
  induction reps generalizing i with
  | nil => simp [spec_find] at h
  | cons r rs ih =>
    rw [spec_find] at h
    cases hs : spec_is_similar cand r e d with
    | true =>
      rw [hs] at h
      simp at h
      simp only [List.length_cons]
      omega
    | false =>
      rw [hs] at h
      simp only [Bool.false_eq_true, if_false, Option.map_eq_some'] at h
      obtain ⟨j, hj, hji⟩ := h
      rw [← hji]
      have := ih hj
      simp only [List.length_cons]
      omega

/-- When every element of todo is dissimilar to everything before it,
the scan appends each in turn: the loop is the identity on such input. -/
theorem dcLoop_all_dissim {e d : ℝ} {todo done : List Cluster}
    (hpair : todo.Pairwise fun a b => IsSimilarToCluster b a e d = some false)
    (hcross : ∀ t ∈ todo, ∀ r ∈ done, IsSimilarToCluster t r e d = some false) :
    dcLoop e d todo done = .ok (done ++ todo) := by
  induction todo generalizing done with
  | nil => rw [dcLoop, List.append_nil]
  | cons t ts ih =>
    rw [dcLoop, mergeInto_of_all_false (hcross t (by simp))]
    show dcLoop e d ts (done ++ [t]) = _
    rw [ih hpair.of_cons]
    · rw [List.append_assoc]
      rfl
    · intro t' ht' r hr
      rcases List.mem_append.mp hr with hr | hr
      · exact hcross t' (List.mem_cons_of_mem _ ht') r hr
      · simp only [List.mem_singleton] at hr
        rw [hr]
        exact (List.pairwise_cons.mp hpair).1 t' ht'

/-- Mutual dissimilarity of two structures at the given thresholds. -/
def Dissim (e d : ℝ) (a b : Cluster) : Prop :=
  IsSimilarToCluster a b e d = some false ∧ IsSimilarToCluster b a e d = some false

theorem Dissim_symm {e d : ℝ} : Symmetric (Dissim e d) := fun _ _ h => ⟨h.2, h.1⟩

/-- One homogeneous step of the outer loop is the spec-side merge. -/
theorem dcLoop_cons_spec {e d : ℝ} {c : Cluster} {cs reps : List Cluster}
    (hlen : ∀ r ∈ reps, c.Atoms.length = r.Atoms.length) :
    dcLoop e d (c :: cs) reps = dcLoop e d cs (spec_merge e d reps c) := by
  rw [dcLoop, mergeInto_eq_spec hlen]
  show dcLoop e d cs (if (spec_find e d c reps).isSome then _ else reps ++ [c]) = _
  unfold spec_merge
  cases spec_find e d c reps with
  | none => rfl
  | some i => rfl

/-- On an energy-ascending homogeneous candidate stream no in-place
replacement ever happens, and the loop keeps the representative list
pairwise dissimilar. -/
theorem dcLoop_ascending {e d : ℝ} {n : ℕ} {cands reps : List Cluster}
    (hreps : ∀ r ∈ reps, r.Atoms.length = n)
    (hcands : ∀ c ∈ cands, c.Atoms.length = n)
    (hasc : cands.Pairwise clusterLE)
    (hcross : ∀ r ∈ reps, ∀ c ∈ cands, r.Energy ≤ c.Energy)
    (hpair : reps.Pairwise (Dissim e d)) :
    ∃ res, dcLoop e d cands reps = .ok res ∧ res.Pairwise (Dissim e d) := by
  induction cands generalizing reps with
  | nil => exact ⟨reps, rfl, hpair⟩
  | cons c cs ih =>
    have hc : c.Atoms.length = n := hcands c (by simp)
    have hlen : ∀ r ∈ reps, c.Atoms.length = r.Atoms.length :=
      fun r hr => by rw [hc, hreps r hr]
    rw [dcLoop_cons_spec hlen]
    cases hsf : spec_find e d c reps with
    | some i =>
      have hilt := spec_find_some_lt hsf
      have hmem : reps.getD i default ∈ reps := by
        rw [List.getD_eq_getElem _ _ hilt]
        exact List.getElem_mem hilt
      have hEc : (reps.getD i default).Energy ≤ c.Energy := hcross _ hmem c (by simp)
      have hmerge : spec_merge e d reps c = reps := by
        unfold spec_merge
        rw [hsf]
        simp only
        rw [if_neg (not_lt.mpr hEc)]
      rw [hmerge]
      exact ih hreps (fun x hx => hcands x (List.mem_cons_of_mem _ hx)) hasc.of_cons
        (fun r hr c' hc' => hcross r hr c' (List.mem_cons_of_mem _ hc')) hpair
    | none =>
      have hmerge : spec_merge e d reps c = reps ++ [c] := by
        unfold spec_merge
        rw [hsf]
      rw [hmerge]
      have hcdis : ∀ r ∈ reps, Dissim e d r c := by
        intro r hr
        have hsimcr : IsSimilarToCluster c r e d = some false := by
          rw [isSimilar_eq_spec (hlen r hr), spec_find_eq_none hsf r hr]
        exact ⟨by rw [isSimilar_symm ((hlen r hr).symm)]; exact hsimcr, hsimcr⟩
      apply ih
      · intro r hr
        rcases List.mem_append.mp hr with h' | h'
        · exact hreps r h'
        · simp only [List.mem_singleton] at h'
          rw [h']; exact hc
      · exact fun x hx => hcands x (List.mem_cons_of_mem _ hx)
      · exact hasc.of_cons
      · intro r hr c' hc'
        rcases List.mem_append.mp hr with h' | h'
        · exact hcross r h' c' (List.mem_cons_of_mem _ hc')
        · simp only [List.mem_singleton] at h'
          rw [h']
          exact (List.pairwise_cons.mp hasc).1 c' hc'
      · rw [List.pairwise_append]
        exact ⟨hpair, List.pairwise_singleton _ _, fun r hr c' hc' => by
          simp only [List.mem_singleton] at hc'
          exact hc' ▸ hcdis r hr⟩

/-- A successful DoubleCheck run implies the guards passed. -/
theorem DoubleCheck_ok_guards {e d : ℝ} {X reps : List Cluster}
    (h : DoubleCheck e d X = .ok reps) : 0 ≤ e ∧ 0 ≤ d ∧ X ≠ [] := by
  unfold DoubleCheck at h
  by_cases hg : e < 0 ∨ d < 0
  · rw [if_pos hg] at h; simp at h
  · rw [if_neg hg] at h
    push_neg at hg
    cases X with
    | nil => simp at h
    | cons c cs => exact ⟨hg.1, hg.2, by simp⟩

/-- With valid thresholds DoubleCheck is the outer loop followed by the
final energy sort. -/
theorem DoubleCheck_cons {e d : ℝ} (he : 0 ≤ e) (hd : 0 ≤ d) (c : Cluster) (cs : List Cluster) :
    DoubleCheck e d (c :: cs) = (dcLoop e d cs [c]).map SortCluster := by
  unfold DoubleCheck
  rw [if_neg (by push_neg; exact ⟨he, hd⟩)]

/-- A one-atom structure at the origin with the given energy, used as a
concrete test input. -/
def oneC (E : ℝ) : Cluster := ⟨[⟨"C", 0, 0, 0⟩], E⟩

/-- A two-atom structure with the given energy, used as a concrete test
input. -/
def twoC (E : ℝ) : Cluster := ⟨[⟨"C", 0, 0, 0⟩, ⟨"C", 1, 0, 0⟩], E⟩

theorem distanceFingerprint_single (a : Atom) (E : ℝ) :
    distanceFingerprint (Cluster.mk [a] E) = [] := rfl

theorem maxListAbsDiff_nil_left (l : List ℝ) : maxListAbsDiff [] l = 0 := rfl

theorem isSimilar_single_atom (a b : Atom) (E1 E2 e d : ℝ) :
    IsSimilarToCluster (Cluster.mk [a] E1) (Cluster.mk [b] E2) e d =
      some (if |E1 - E2| * 627.5094 > e then false else if (0 : ℝ) > d then false else true) := by
  by_cases hg : |E1 - E2| * 627.5094 > e
  · rw [if_pos hg]
    exact isSimilar_of_gate hg
  · rw [if_neg hg]
    rw [isSimilar_of_le_lengths hg (by rw [distanceFingerprint_single, distanceFingerprint_single])]
    rw [distanceFingerprint_single, distanceFingerprint_single]
    rfl

theorem isSimilar_oneC_true {E1 E2 e d : ℝ}
    (hg : ¬ |E1 - E2| * 627.5094 > e) (hd : 0 ≤ d) :
    IsSimilarToCluster (oneC E1) (oneC E2) e d = some true := by
  show IsSimilarToCluster (Cluster.mk [⟨"C", 0, 0, 0⟩] E1) (Cluster.mk [⟨"C", 0, 0, 0⟩] E2) e d
      = some true
  rw [isSimilar_single_atom, if_neg hg, if_neg (not_lt.mpr hd)]

theorem mergeInto_cons_sim_true {e d : ℝ} {cand r : Cluster} {rs : List Cluster}
    (h : IsSimilarToCluster cand r e d = some true) :
    mergeInto e d cand (r :: rs) =
      .ok (true, (if cand.Energy < r.Energy then cand else r) :: rs) := by
  rw [mergeInto, h]

theorem mergeInto_cons_sim_false {e d : ℝ} {cand r : Cluster} {rs : List Cluster}
    {f : Bool} {rs' : List Cluster}
    (h : IsSimilarToCluster cand r e d = some false)
    (hrec : mergeInto e d cand rs = .ok (f, rs')) :
    mergeInto e d cand (r :: rs) = .ok (f, r :: rs') := by
  rw [mergeInto, h, hrec]

theorem dcLoop_nil (e d : ℝ) (reps : List Cluster) : dcLoop e d [] reps = .ok reps := rfl

theorem dcLoop_cons_found {e d : ℝ} {cand : Cluster} {cands reps reps' : List Cluster}
    (h : mergeInto e d cand reps = .ok (true, reps')) :
    dcLoop e d (cand :: cands) reps = dcLoop e d cands reps' := by
  rw [dcLoop, h]
  rfl

theorem dcLoop_cons_notfound {e d : ℝ} {cand : Cluster} {cands reps reps' : List Cluster}
    (h : mergeInto e d cand reps = .ok (false, reps')) :
    dcLoop e d (cand :: cands) reps = dcLoop e d cands (reps ++ [cand]) := by
  rw [dcLoop, h]
  rfl

theorem SortCluster_single (c : Cluster) : SortCluster [c] = [c] := rfl

theorem SortCluster_pair_le {a b : Cluster} (h : clusterLE a b) :
    SortCluster [a, b] = [a, b] := by
  show List.orderedInsert clusterLE a (List.orderedInsert clusterLE b []) = [a, b]
  rw [List.orderedInsert_nil, List.orderedInsert, if_pos h]

theorem SortCluster_pair_gt {a b : Cluster} (h : ¬ clusterLE a b) :
    SortCluster [a, b] = [b, a] := by
  show List.orderedInsert clusterLE a (List.orderedInsert clusterLE b []) = [b, a]
  rw [List.orderedInsert_nil, List.orderedInsert, if_neg h]
  rfl

/-- C2: for equal atom counts and non-negative thresholds, is_similar
returns false whenever |dE| * 627.5094 exceeds the energy threshold, and
otherwise returns true iff the max elementwise difference of the two
ascending-sorted pairwise-distance arrays is at most the distance
threshold. -/
theorem claim_C2_similarity_oracle (a b : Cluster) (e d : ℝ)
    (hn : a.Atoms.length = b.Atoms.length) (_he : 0 ≤ e) (_hd : 0 ≤ d) :
    (|a.Energy - b.Energy| * 627.5094 > e → IsSimilarToCluster a b e d = some false) ∧
    (|a.Energy - b.Energy| * 627.5094 ≤ e →
      (IsSimilarToCluster a b e d = some true ↔
        maxListAbsDiff (distanceFingerprint a) (distanceFingerprint b) ≤ d)) := by
  constructor
  · exact isSimilar_of_gate
  · intro hg
    have hlen : (distanceFingerprint a).length ≤ (distanceFingerprint b).length := by
      rw [distanceFingerprint_length, distanceFingerprint_length, hn]
    rw [isSimilar_of_le_lengths (not_lt.mpr hg) hlen]
    constructor
    · intro h
      by_contra hmax
      rw [if_pos (lt_of_not_le hmax)] at h
      simp at h
    · intro hmax
      rw [if_neg (not_lt.mpr hmax)]

/-- Witness for C2 at two concrete one-atom structures. -/
theorem claim_C2_witness :
    (oneC 0).Atoms.length = (oneC (1/1000)).Atoms.length ∧ (0:ℝ) ≤ 1 ∧ (0:ℝ) ≤ 1 ∧
    IsSimilarToCluster (oneC 0) (oneC (1/1000)) 1 1 = some true := by
  refine ⟨rfl, by norm_num, by norm_num, ?_⟩
  have h2 := (claim_C2_similarity_oracle (oneC 0) (oneC (1/1000)) 1 1 rfl (by norm_num)
      (by norm_num)).2 (by show |(0:ℝ) - 1/1000| * 627.5094 ≤ 1; norm_num [abs_of_nonneg])
  exact h2.mpr (by show (0:ℝ) ≤ 1; norm_num)

/-- C3: for valid thresholds and a homogeneous non-empty ensemble,
DoubleCheck starts from ensemble[0] and merges each later candidate
into the first similar representative (replacing it in place iff the
candidate energy is strictly lower), or appends it at the end when no
representative matches — i.e. it refines the spec-side scan. -/
theorem claim_C3_greedy_merge (e d : ℝ) (c : Cluster) (cs : List Cluster)
    (he : 0 ≤ e) (hd : 0 ≤ d) (hhom : Homogeneous (c :: cs)) :
    DoubleCheck e d (c :: cs) = .ok (spec_double_check e d (c :: cs)) := by
  have h1 : ∀ r ∈ [c], r.Atoms.length = c.Atoms.length := by
    intro r hr
    simp at hr
    rw [hr]
  have h2 : ∀ x ∈ cs, x.Atoms.length = c.Atoms.length :=
    fun x hx => hhom x (List.mem_cons_of_mem _ hx) c (List.mem_cons_self _ _)
  rw [DoubleCheck_cons he hd, dcLoop_eq_spec h1 h2]
  rfl

/-- Witness for C3 at a concrete singleton ensemble. -/
theorem claim_C3_witness :
    ((0:ℝ) ≤ 1 ∧ (0:ℝ) ≤ 1 ∧ Homogeneous [oneC 7]) ∧
    DoubleCheck 1 1 [oneC 7] = .ok (spec_double_check 1 1 [oneC 7]) := by
  have hhom : Homogeneous [oneC 7] := by
    intro a ha b hb
    simp at ha hb
    rw [ha, hb]
  exact ⟨⟨by norm_num, by norm_num, hhom⟩,
    claim_C3_greedy_merge 1 1 (oneC 7) [] (by norm_num) (by norm_num) hhom⟩

/-- C4: DoubleCheck returns one of its two declared errors exactly when
a threshold is negative or the ensemble is empty; empty input with valid
thresholds gives the empty-list error, and a negative energy threshold
gives the threshold error for every input. -/
theorem claim_C4_error_conditions :
    (∀ (e d : ℝ) (X : List Cluster),
      (DoubleCheck e d X = .error .invalidThreshold ∨
        DoubleCheck e d X = .error .emptyClusterList) ↔ e < 0 ∨ d < 0 ∨ X = []) ∧
    DoubleCheck 0.25 0.1 ([] : List Cluster) = .error .emptyClusterList ∧
    ∀ X : List Cluster, DoubleCheck (-1) 0.1 X = .error .invalidThreshold := by
  refine ⟨?_, ?_, ?_⟩
  · intro e d X
    constructor
    · intro h
      by_cases hg : e < 0 ∨ d < 0
      · rcases hg with hg | hg
        · exact Or.inl hg
        · exact Or.inr (Or.inl hg)
      · cases X with
        | nil => exact Or.inr (Or.inr rfl)
        | cons c cs =>
          exfalso
          push_neg at hg
          rw [DoubleCheck_cons hg.1 hg.2] at h
          cases hdc : dcLoop e d cs [c] with
          | error err =>
            have herr := dcLoop_error hdc
            rw [hdc] at h
            rcases h with h | h <;> simp [Except.map] at h <;> rw [herr] at h <;> cases h
          | ok res =>
            rw [hdc] at h
            rcases h with h | h <;> simp [Except.map] at h
    · intro h
      rcases h with h | h | h
      · unfold DoubleCheck
        rw [if_pos (Or.inl h)]
        exact Or.inl rfl
      · unfold DoubleCheck
        rw [if_pos (Or.inr h)]
        exact Or.inl rfl
      · rw [h]
        by_cases hg : e < 0 ∨ d < 0
        · unfold DoubleCheck
          rw [if_pos hg]
          exact Or.inl rfl
        · unfold DoubleCheck
          rw [if_neg hg]
          exact Or.inr rfl
  · unfold DoubleCheck
    rw [if_neg (by push_neg; constructor <;> norm_num)]
  · intro X
    unfold DoubleCheck
    rw [if_pos (Or.inl (by norm_num))]

/-- C5: for valid homogeneous input the returned representative list is
the stable ascending-by-energy sort of the scan result: it is sorted,
and within every fixed energy value the scan (discovery) order is kept. -/
theorem claim_C5_sorted_stable (e d : ℝ) (c : Cluster) (cs : List Cluster)
    (he : 0 ≤ e) (hd : 0 ≤ d) (hhom : Homogeneous (c :: cs)) :
    ∃ pre, dcLoop e d cs [c] = .ok pre ∧
      DoubleCheck e d (c :: cs) = .ok (SortCluster pre) ∧
      List.Sorted clusterLE (SortCluster pre) ∧
      ∀ E : ℝ, (SortCluster pre).filter (fun x => decide (x.Energy = E)) =
        pre.filter (fun x => decide (x.Energy = E)) := by
  have h1 : ∀ r ∈ [c], r.Atoms.length = c.Atoms.length := by
    intro r hr
    simp at hr
    rw [hr]
  have h2 : ∀ x ∈ cs, x.Atoms.length = c.Atoms.length :=
    fun x hx => hhom x (List.mem_cons_of_mem _ hx) c (List.mem_cons_self _ _)
  refine ⟨cs.foldl (spec_merge e d) [c], dcLoop_eq_spec h1 h2, ?_,
    SortCluster_sorted _, fun E => SortCluster_filter_energy _ E⟩
  rw [DoubleCheck_cons he hd, dcLoop_eq_spec h1 h2]
  rfl

/-- Witness for C5 at a concrete singleton ensemble. -/
theorem claim_C5_witness :
    ((0:ℝ) ≤ 2 ∧ (0:ℝ) ≤ 2 ∧ Homogeneous [oneC 3]) ∧
    ∃ pre, dcLoop 2 2 [] [oneC 3] = .ok pre ∧
      DoubleCheck 2 2 [oneC 3] = .ok (SortCluster pre) ∧
      List.Sorted clusterLE (SortCluster pre) ∧
      ∀ E : ℝ, (SortCluster pre).filter (fun x => decide (x.Energy = E)) =
        pre.filter (fun x => decide (x.Energy = E)) := by
  have hhom : Homogeneous [oneC 3] := by
    intro a ha b hb
    simp at ha hb
    rw [ha, hb]
  exact ⟨⟨by norm_num, by norm_num, hhom⟩,
    claim_C5_sorted_stable 2 2 (oneC 3) [] (by norm_num) (by norm_num) hhom⟩

/-- C10: every representative returned by a successful DoubleCheck run
is one of the input structures, and the output size is between 1 and
the input size. -/
theorem claim_C10_output_subset (e d : ℝ) (X reps : List Cluster)
    (h : DoubleCheck e d X = .ok reps) :
    (∀ r ∈ reps, r ∈ X) ∧ 1 ≤ reps.length ∧ reps.length ≤ X.length := by
  obtain ⟨he, hd, hne⟩ := DoubleCheck_ok_guards h
  cases X with
  | nil => exact absurd rfl hne
  | cons c cs =>
    rw [DoubleCheck_cons he hd] at h
    cases hdc : dcLoop e d cs [c] with
    | error err =>
      rw [hdc] at h
      simp [Except.map] at h
    | ok res =>
      rw [hdc] at h
      simp only [Except.map, Except.ok.injEq] at h
      have hperm : reps.Perm res := h ▸ SortCluster_perm res
      have hlen := dcLoop_ok_length hdc
      constructor
      · intro r hr
        rcases dcLoop_ok_mem hdc r (hperm.mem_iff.mp hr) with h' | h'
        · simp only [List.mem_singleton] at h'
          rw [h']
          exact List.mem_cons_self _ _
        · exact List.mem_cons_of_mem _ h'
      · have hre : reps.length = res.length := hperm.length_eq
        simp only [List.length_singleton] at hlen
        simp only [List.length_cons]
        omega

/-- Witness for C10 at a concrete singleton run. -/
theorem claim_C10_witness :
    DoubleCheck 1 1 [oneC 0] = .ok [oneC 0] ∧
    (∀ r ∈ [oneC 0], r ∈ [oneC 0]) ∧ 1 ≤ ([oneC 0] : List Cluster).length ∧
      ([oneC 0] : List Cluster).length ≤ ([oneC 0] : List Cluster).length := by
  have heval : DoubleCheck 1 1 [oneC 0] = .ok [oneC 0] := by
    rw [DoubleCheck_cons (by norm_num) (by norm_num), dcLoop_nil]
    rfl
  exact ⟨heval, claim_C10_output_subset 1 1 [oneC 0] [oneC 0] heval⟩

/-- C9 counterexample: in the report the relative energy of a cluster
lying 1 Hartree above the minimum is 627.51 kcal/mol, not 627.5094: the
conversion constant in PrintClusterInFo is 627.51. -/
theorem claim_C9_counterexample :
    PrintClusterInFoData [oneC 0, oneC 1] = [(0, 0), (1, 627.51)] ∧
    (627.51 : ℝ) ≠ 627.5094 := by
  constructor
  · have hs : SortCluster [oneC 0, oneC 1] = [oneC 0, oneC 1] :=
      SortCluster_pair_le (show (0:ℝ) ≤ 1 by norm_num)
    simp only [PrintClusterInFoData, hs, List.headD_cons, List.map_cons, List.map_nil]
    norm_num [oneC]
  · norm_num

/-- C9 amended: the report lists, after the stable energy sort, each
energy with relative energy (E - E_min) * 627.51, where E_min (the head
of the sorted list) is the minimum energy of the ensemble. -/
theorem claim_C9_amended (cl : List Cluster) (hne : cl ≠ []) :
    PrintClusterInFoData cl = (SortCluster cl).map
      (fun c => (c.Energy, (c.Energy - ((SortCluster cl).headD default).Energy) * 627.51)) ∧
    (∀ c ∈ cl, ((SortCluster cl).headD default).Energy ≤ c.Energy) ∧
    (SortCluster cl).headD default ∈ cl := by
  refine ⟨rfl, SortCluster_head_min hne, ?_⟩
  have hperm := SortCluster_perm cl
  cases hs : SortCluster cl with
  | nil =>
    rw [hs] at hperm
    exact absurd hperm.symm.eq_nil hne
  | cons a t =>
    rw [hs] at hperm
    exact hperm.mem_iff.mp (List.mem_cons_self _ _)

/-- Witness for amended C9 at a concrete singleton list. -/
theorem claim_C9_witness :
    ([oneC 5] : List Cluster) ≠ [] ∧
    (PrintClusterInFoData [oneC 5] = (SortCluster [oneC 5]).map
      (fun c => (c.Energy, (c.Energy - ((SortCluster [oneC 5]).headD default).Energy) * 627.51)) ∧
    (∀ c ∈ [oneC 5], ((SortCluster [oneC 5]).headD default).Energy ≤ c.Energy) ∧
    (SortCluster [oneC 5]).headD default ∈ [oneC 5]) := by
  have hne : ([oneC 5] : List Cluster) ≠ [] := by simp
  exact ⟨hne, claim_C9_amended [oneC 5] hne⟩

/-- C1 counterexample: a DoubleCheck run over a 2-atom and a 1-atom
structure does not abort with any StructureMismatch error — the
comparison silently succeeds and a representative set is returned. -/
theorem claim_C1_counterexample :
    (twoC 0).Atoms.length = 2 ∧ (oneC 0).Atoms.length = 1 ∧
    DoubleCheck 1 1 [twoC 0, oneC 0] = .ok [twoC 0] := by
  refine ⟨rfl, rfl, ?_⟩
  have hsim : IsSimilarToCluster (oneC 0) (twoC 0) 1 1 = some true := by
    rw [isSimilar_of_le_lengths
      (show ¬ |(0:ℝ) - 0| * 627.5094 > 1 by norm_num) (Nat.zero_le _)]
    rw [show maxListAbsDiff (distanceFingerprint (oneC 0)) (distanceFingerprint (twoC 0)) = 0
      from rfl]
    rw [if_neg (show ¬ (0:ℝ) > 1 by norm_num)]
  have hmerge : mergeInto 1 1 (oneC 0) [twoC 0] = .ok (true, [twoC 0]) := by
    rw [mergeInto_cons_sim_true hsim,
      if_neg (show ¬ (oneC 0).Energy < (twoC 0).Energy from by
        show ¬ (0:ℝ) < 0; norm_num)]
  rw [DoubleCheck_cons (by norm_num) (by norm_num), dcLoop_cons_found hmerge, dcLoop_nil]
  rfl

/-- C1 amended: there is no atom-count check: when the candidate's
distance array is no longer than the representative's the check returns
a boolean, silently comparing only the candidate's entries; when it is
strictly longer (and the energy gate passes) the comparison loop
indexes out of range — a runtime panic, not a StructureMismatch
error. -/
theorem claim_C1_amended (a b : Cluster) (e d : ℝ) :
    ((distanceFingerprint a).length ≤ (distanceFingerprint b).length →
      ∃ r : Bool, IsSimilarToCluster a b e d = some r) ∧
    (¬ |a.Energy - b.Energy| * 627.5094 > e →
      (distanceFingerprint b).length < (distanceFingerprint a).length →
      IsSimilarToCluster a b e d = none) := by
  constructor
  · intro hl
    by_cases hg : |a.Energy - b.Energy| * 627.5094 > e
    · exact ⟨false, isSimilar_of_gate hg⟩
    · exact ⟨_, isSimilar_of_le_lengths hg hl⟩
  · intro hg hl
    exact isSimilar_of_lt_lengths hg hl

/-- Witness for amended C1: a 1-atom candidate against a 2-atom
representative returns a boolean; the reverse orientation panics. -/
theorem claim_C1_witness :
    ((distanceFingerprint (oneC 0)).length ≤ (distanceFingerprint (twoC 0)).length ∧
      ∃ r : Bool, IsSimilarToCluster (oneC 0) (twoC 0) 1 1 = some r) ∧
    ((¬ |(twoC 0).Energy - (oneC 0).Energy| * 627.5094 > 1) ∧
      (distanceFingerprint (oneC 0)).length < (distanceFingerprint (twoC 0)).length ∧
      IsSimilarToCluster (twoC 0) (oneC 0) 1 1 = none) := by
  have hle : (distanceFingerprint (oneC 0)).length ≤ (distanceFingerprint (twoC 0)).length :=
    Nat.zero_le _
  have hlt : (distanceFingerprint (oneC 0)).length < (distanceFingerprint (twoC 0)).length := by
    rw [distanceFingerprint_length (twoC 0)]
    show 0 < fpLen 2
    decide
  have hg : ¬ |(twoC 0).Energy - (oneC 0).Energy| * 627.5094 > 1 := by
    show ¬ |(0:ℝ) - 0| * 627.5094 > 1
    norm_num
  exact ⟨⟨hle, (claim_C1_amended (oneC 0) (twoC 0) 1 1).1 hle⟩,
    hg, hlt, (claim_C1_amended (twoC 0) (oneC 0) 1 1).2 hg hlt⟩

/-- C6 counterexample: with thresholds e = 627.5094 kcal/mol, d = 1 and
energies 1, -1/2, 1/10, the in-place replacement of the first
representative leaves two surviving representatives that are similar to
each other. -/
theorem claim_C6_counterexample :
    DoubleCheck 627.5094 1 [oneC 1, oneC (-1/2), oneC (1/10)] =
      .ok [oneC (-1/2), oneC (1/10)] ∧
    oneC (-1/2) ≠ oneC (1/10) ∧
    IsSimilarToCluster (oneC (-1/2)) (oneC (1/10)) 627.5094 1 = some true := by
  have hs1 : IsSimilarToCluster (oneC (-1/2)) (oneC 1) 627.5094 1 = some false :=
    isSimilar_of_gate (show |(-1/2 : ℝ) - 1| * 627.5094 > 627.5094 by
      norm_num [abs_of_nonneg, abs_of_nonpos])
  have hm1 : mergeInto 627.5094 1 (oneC (-1/2)) [oneC 1] = .ok (false, [oneC 1]) :=
    mergeInto_cons_sim_false hs1 rfl
  have hs2 : IsSimilarToCluster (oneC (1/10)) (oneC 1) 627.5094 1 = some true :=
    isSimilar_oneC_true (show ¬ |(1/10 : ℝ) - 1| * 627.5094 > 627.5094 by
      norm_num [abs_of_nonneg, abs_of_nonpos]) (by norm_num)
  have hm2 : mergeInto 627.5094 1 (oneC (1/10)) [oneC 1, oneC (-1/2)] =
      .ok (true, [oneC (1/10), oneC (-1/2)]) := by
    rw [mergeInto_cons_sim_true hs2,
      if_pos (show (oneC (1/10)).Energy < (oneC 1).Energy from by
        show (1/10 : ℝ) < 1; norm_num)]
  refine ⟨?_, ?_, ?_⟩
  · rw [DoubleCheck_cons (by norm_num) (by norm_num), dcLoop_cons_notfound hm1,
      show ([oneC 1] ++ [oneC (-1/2)] : List Cluster) = [oneC 1, oneC (-1/2)] from rfl,
      dcLoop_cons_found hm2, dcLoop_nil]
    show Except.ok (SortCluster [oneC (1/10), oneC (-1/2)]) = _
    rw [SortCluster_pair_gt (show ¬ clusterLE (oneC (1/10)) (oneC (-1/2)) from by
      show ¬ (1/10 : ℝ) ≤ -1/2; norm_num)]
  · intro h
    have hE := congrArg Cluster.Energy h
    norm_num [oneC] at hE
  · exact isSimilar_oneC_true (show ¬ |(-1/2 : ℝ) - 1/10| * 627.5094 > 627.5094 by
      norm_num [abs_of_nonneg, abs_of_nonpos]) (by norm_num)

/-- C6 amended: the no-duplicates postcondition holds whenever the
input ensemble is fed in ascending energy order (then no in-place
replacement can happen); in general a replacement can leave two similar
representatives in the output. -/
theorem claim_C6_amended (e d : ℝ) (c : Cluster) (cs : List Cluster)
    (he : 0 ≤ e) (hd : 0 ≤ d) (hhom : Homogeneous (c :: cs))
    (hasc : (c :: cs).Pairwise clusterLE) :
    ∃ reps, DoubleCheck e d (c :: cs) = .ok reps ∧
      ∀ r1 ∈ reps, ∀ r2 ∈ reps, r1 ≠ r2 → IsSimilarToCluster r1 r2 e d = some false := by
  have h1 : ∀ r ∈ [c], r.Atoms.length = c.Atoms.length := by
    intro r hr
    simp at hr
    rw [hr]
  have h2 : ∀ x ∈ cs, x.Atoms.length = c.Atoms.length :=
    fun x hx => hhom x (List.mem_cons_of_mem _ hx) c (List.mem_cons_self _ _)
  have hcross : ∀ r ∈ [c], ∀ c' ∈ cs, r.Energy ≤ c'.Energy := by
    intro r hr c' hc'
    simp at hr
    rw [hr]
    exact (List.pairwise_cons.mp hasc).1 c' hc'
  obtain ⟨res, hres, hpair⟩ :=
    dcLoop_ascending h1 h2 hasc.of_cons hcross (List.pairwise_singleton _ _)
  refine ⟨SortCluster res, by rw [DoubleCheck_cons he hd, hres]; rfl, ?_⟩
  have hpair' : (SortCluster res).Pairwise (Dissim e d) :=
    ((SortCluster_perm res).pairwise_iff fun hab => Dissim_symm hab).mpr hpair
  intro r1 hr1 r2 hr2 hne
  exact (hpair'.forall Dissim_symm hr1 hr2 hne).1

/-- Witness for amended C6 at a concrete ascending two-element
ensemble. -/
theorem claim_C6_witness :
    ((0:ℝ) ≤ 627.5094 ∧ (0:ℝ) ≤ 1 ∧ Homogeneous [oneC (-1/2), oneC 10] ∧
      ([oneC (-1/2), oneC 10] : List Cluster).Pairwise clusterLE) ∧
    ∃ reps, DoubleCheck 627.5094 1 [oneC (-1/2), oneC 10] = .ok reps ∧
      ∀ r1 ∈ reps, ∀ r2 ∈ reps, r1 ≠ r2 →
        IsSimilarToCluster r1 r2 627.5094 1 = some false := by
  have hhom : Homogeneous [oneC (-1/2), oneC 10] := by
    intro a ha b hb
    rcases List.mem_cons.mp ha with h | h
    · rcases List.mem_cons.mp hb with h' | h'
      · rw [h, h']
      · simp only [List.mem_singleton] at h'
        rw [h, h']
        rfl
    · simp only [List.mem_singleton] at h
      rcases List.mem_cons.mp hb with h' | h'
      · rw [h, h']
        rfl
      · simp only [List.mem_singleton] at h'
        rw [h, h']
  have hasc : ([oneC (-1/2), oneC 10] : List Cluster).Pairwise clusterLE := by
    refine List.pairwise_cons.mpr ⟨?_, List.pairwise_singleton _ _⟩
    intro b hb
    simp only [List.mem_singleton] at hb
    rw [hb]
    show (-1/2 : ℝ) ≤ 10
    norm_num
  exact ⟨⟨by norm_num, by norm_num, hhom, hasc⟩,
    claim_C6_amended 627.5094 1 (oneC (-1/2)) [oneC 10] (by norm_num) (by norm_num) hhom hasc⟩

/-- C7 counterexample: re-running double_check on its own output can
shrink the list: the first run's replacement leaves two similar
representatives, which the second run merges. -/
theorem claim_C7_counterexample :
    DoubleCheck 627.5094 1 [oneC 2, oneC (1/2), oneC (11/10)] =
      .ok [oneC (1/2), oneC (11/10)] ∧
    DoubleCheck 627.5094 1 [oneC (1/2), oneC (11/10)] = .ok [oneC (1/2)] ∧
    ([oneC (1/2)] : List Cluster) ≠ [oneC (1/2), oneC (11/10)] := by
  have hs1 : IsSimilarToCluster (oneC (1/2)) (oneC 2) 627.5094 1 = some false :=
    isSimilar_of_gate (show |(1/2 : ℝ) - 2| * 627.5094 > 627.5094 by
      norm_num [abs_of_nonneg, abs_of_nonpos])
  have hm1 : mergeInto 627.5094 1 (oneC (1/2)) [oneC 2] = .ok (false, [oneC 2]) :=
    mergeInto_cons_sim_false hs1 rfl
  have hs2 : IsSimilarToCluster (oneC (11/10)) (oneC 2) 627.5094 1 = some true :=
    isSimilar_oneC_true (show ¬ |(11/10 : ℝ) - 2| * 627.5094 > 627.5094 by
      norm_num [abs_of_nonneg, abs_of_nonpos]) (by norm_num)
  have hm2 : mergeInto 627.5094 1 (oneC (11/10)) [oneC 2, oneC (1/2)] =
      .ok (true, [oneC (11/10), oneC (1/2)]) := by
    rw [mergeInto_cons_sim_true hs2,
      if_pos (show (oneC (11/10)).Energy < (oneC 2).Energy from by
        show (11/10 : ℝ) < 2; norm_num)]
  have hs3 : IsSimilarToCluster (oneC (11/10)) (oneC (1/2)) 627.5094 1 = some true :=
    isSimilar_oneC_true (show ¬ |(11/10 : ℝ) - 1/2| * 627.5094 > 627.5094 by
      norm_num [abs_of_nonneg, abs_of_nonpos]) (by norm_num)
  have hm3 : mergeInto 627.5094 1 (oneC (11/10)) [oneC (1/2)] = .ok (true, [oneC (1/2)]) := by
    rw [mergeInto_cons_sim_true hs3,
      if_neg (show ¬ (oneC (11/10)).Energy < (oneC (1/2)).Energy from by
        show ¬ (11/10 : ℝ) < 1/2; norm_num)]
  refine ⟨?_, ?_, ?_⟩
  · rw [DoubleCheck_cons (by norm_num) (by norm_num), dcLoop_cons_notfound hm1,
      show ([oneC 2] ++ [oneC (1/2)] : List Cluster) = [oneC 2, oneC (1/2)] from rfl,
      dcLoop_cons_found hm2, dcLoop_nil]
    show Except.ok (SortCluster [oneC (11/10), oneC (1/2)]) = _
    rw [SortCluster_pair_gt (show ¬ clusterLE (oneC (11/10)) (oneC (1/2)) from by
      show ¬ (11/10 : ℝ) ≤ 1/2; norm_num)]
  · rw [DoubleCheck_cons (by norm_num) (by norm_num), dcLoop_cons_found hm3, dcLoop_nil]
    rfl
  · intro h
    simpa using congrArg List.length h

/-- C7 amended: double_check is a fixed point on any of its outputs
whose representatives are pairwise dissimilar (in particular whenever
the run performed no replacement); the unconditional idempotence claim
fails. -/
theorem claim_C7_amended (e d : ℝ) (X reps : List Cluster)
    (h : DoubleCheck e d X = .ok reps)
    (hpair : reps.Pairwise fun a b => IsSimilarToCluster b a e d = some false) :
    DoubleCheck e d reps = .ok reps := by
  obtain ⟨he, hd, hne⟩ := DoubleCheck_ok_guards h
  have hkey : List.Sorted clusterLE reps ∧ 1 ≤ reps.length := by
    cases X with
    | nil => exact absurd rfl hne
    | cons c cs =>
      rw [DoubleCheck_cons he hd] at h
      cases hdc : dcLoop e d cs [c] with
      | error err =>
        rw [hdc] at h
        simp [Except.map] at h
      | ok res =>
        rw [hdc] at h
        simp only [Except.map, Except.ok.injEq] at h
        constructor
        · rw [← h]
          exact SortCluster_sorted res
        · have hll := (dcLoop_ok_length hdc).1
          have hre : reps.length = res.length := by
            rw [← h]
            exact (SortCluster_perm res).length_eq
          simp only [List.length_singleton] at hll
          omega
  obtain ⟨hsorted, hlen⟩ := hkey
  cases reps with
  | nil => simp at hlen
  | cons r rs =>
    have hloop : dcLoop e d rs [r] = .ok ([r] ++ rs) := by
      apply dcLoop_all_dissim hpair.of_cons
      intro t ht x hx
      simp only [List.mem_singleton] at hx
      rw [hx]
      exact (List.pairwise_cons.mp hpair).1 t ht
    rw [DoubleCheck_cons he hd, hloop]
    show Except.ok (SortCluster ([r] ++ rs)) = _
    rw [show ([r] ++ rs : List Cluster) = r :: rs from rfl, SortCluster_eq_of_sorted hsorted]

/-- Witness for amended C7: a run whose output is pairwise dissimilar
is a fixed point. -/
theorem claim_C7_witness :
    DoubleCheck 1 1 [oneC 10, oneC 0] = .ok [oneC 0, oneC 10] ∧
    (([oneC 0, oneC 10] : List Cluster).Pairwise fun a b =>
      IsSimilarToCluster b a 1 1 = some false) ∧
    DoubleCheck 1 1 [oneC 0, oneC 10] = .ok [oneC 0, oneC 10] := by
  have hs1 : IsSimilarToCluster (oneC 0) (oneC 10) 1 1 = some false :=
    isSimilar_of_gate (show |(0 : ℝ) - 10| * 627.5094 > 1 by
      norm_num [abs_of_nonneg, abs_of_nonpos])
  have hrun : DoubleCheck 1 1 [oneC 10, oneC 0] = .ok [oneC 0, oneC 10] := by
    have hm : mergeInto 1 1 (oneC 0) [oneC 10] = .ok (false, [oneC 10]) :=
      mergeInto_cons_sim_false hs1 rfl
    rw [DoubleCheck_cons (by norm_num) (by norm_num), dcLoop_cons_notfound hm,
      show ([oneC 10] ++ [oneC 0] : List Cluster) = [oneC 10, oneC 0] from rfl, dcLoop_nil]
    show Except.ok (SortCluster [oneC 10, oneC 0]) = _
    rw [SortCluster_pair_gt (show ¬ clusterLE (oneC 10) (oneC 0) from by
      show ¬ (10 : ℝ) ≤ 0; norm_num)]
  have hpair : ([oneC 0, oneC 10] : List Cluster).Pairwise fun a b =>
      IsSimilarToCluster b a 1 1 = some false := by
    refine List.pairwise_cons.mpr ⟨?_, List.pairwise_singleton _ _⟩
    intro b hb
    simp only [List.mem_singleton] at hb
    rw [hb]
    exact isSimilar_of_gate (show |(10 : ℝ) - 0| * 627.5094 > 1 by
      norm_num [abs_of_nonneg, abs_of_nonpos])
  exact ⟨hrun, hpair, claim_C7_amended 1 1 [oneC 10, oneC 0] [oneC 0, oneC 10] hrun hpair⟩

/-- C8 counterexample: with the same input and d fixed, the looser
energy threshold 627.5094 produces three representatives where the
tighter threshold 627.5094/2 produces only two — the count is not
antitone in the thresholds. -/
theorem claim_C8_counterexample :
    (627.5094/2 : ℝ) ≤ 627.5094 ∧ ((1:ℝ) ≤ 1) ∧
    DoubleCheck (627.5094/2) 1 [oneC (-1/2), oneC (-2), oneC (-3/2), oneC 0] =
      .ok [oneC (-2), oneC (-1/2)] ∧
    DoubleCheck 627.5094 1 [oneC (-1/2), oneC (-2), oneC (-3/2), oneC 0] =
      .ok [oneC (-2), oneC (-3/2), oneC 0] ∧
    ([oneC (-2), oneC (-1/2)] : List Cluster).length <
      ([oneC (-2), oneC (-3/2), oneC 0] : List Cluster).length := by
  refine ⟨by norm_num, le_refl 1, ?_, ?_, by simp⟩
  · -- tight run: |dE| > 1/2 separates, the -3/2 and 0 candidates merge
    -- without replacement
    have hs11 : IsSimilarToCluster (oneC (-2)) (oneC (-1/2)) (627.5094/2) 1 = some false :=
      isSimilar_of_gate (show |(-2 : ℝ) - (-1/2)| * 627.5094 > 627.5094/2 by
        norm_num [abs_of_nonneg, abs_of_nonpos])
    have hm11 : mergeInto (627.5094/2) 1 (oneC (-2)) [oneC (-1/2)] =
        .ok (false, [oneC (-1/2)]) := mergeInto_cons_sim_false hs11 rfl
    have hs12 : IsSimilarToCluster (oneC (-3/2)) (oneC (-1/2)) (627.5094/2) 1 = some false :=
      isSimilar_of_gate (show |(-3/2 : ℝ) - (-1/2)| * 627.5094 > 627.5094/2 by
        norm_num [abs_of_nonneg, abs_of_nonpos])
    have hs13 : IsSimilarToCluster (oneC (-3/2)) (oneC (-2)) (627.5094/2) 1 = some true :=
      isSimilar_oneC_true (show ¬ |(-3/2 : ℝ) - (-2)| * 627.5094 > 627.5094/2 by
        norm_num [abs_of_nonneg, abs_of_nonpos]) (by norm_num)
    have hm12 : mergeInto (627.5094/2) 1 (oneC (-3/2)) [oneC (-1/2), oneC (-2)] =
        .ok (true, [oneC (-1/2), oneC (-2)]) := by
      have hin : mergeInto (627.5094/2) 1 (oneC (-3/2)) [oneC (-2)] =
          .ok (true, [oneC (-2)]) := by
        rw [mergeInto_cons_sim_true hs13,
          if_neg (show ¬ (oneC (-3/2)).Energy < (oneC (-2)).Energy from by
            show ¬ (-3/2 : ℝ) < -2; norm_num)]
      rw [mergeInto, hs12, hin]
    have hs14 : IsSimilarToCluster (oneC 0) (oneC (-1/2)) (627.5094/2) 1 = some true :=
      isSimilar_oneC_true (show ¬ |(0 : ℝ) - (-1/2)| * 627.5094 > 627.5094/2 by
        norm_num [abs_of_nonneg, abs_of_nonpos]) (by norm_num)
    have hm13 : mergeInto (627.5094/2) 1 (oneC 0) [oneC (-1/2), oneC (-2)] =
        .ok (true, [oneC (-1/2), oneC (-2)]) := by
      rw [mergeInto_cons_sim_true hs14,
        if_neg (show ¬ (oneC 0).Energy < (oneC (-1/2)).Energy from by
          show ¬ (0 : ℝ) < -1/2; norm_num)]
    rw [DoubleCheck_cons (by norm_num) (by norm_num), dcLoop_cons_notfound hm11,
      show ([oneC (-1/2)] ++ [oneC (-2)] : List Cluster) = [oneC (-1/2), oneC (-2)] from rfl,
      dcLoop_cons_found hm12, dcLoop_cons_found hm13, dcLoop_nil]
    show Except.ok (SortCluster [oneC (-1/2), oneC (-2)]) = _
    rw [SortCluster_pair_gt (show ¬ clusterLE (oneC (-1/2)) (oneC (-2)) from by
      show ¬ (-1/2 : ℝ) ≤ -2; norm_num)]
  · -- loose run: the -3/2 candidate replaces the -1/2 representative,
    -- stranding the 0 candidate as a third representative
    have hs21 : IsSimilarToCluster (oneC (-2)) (oneC (-1/2)) 627.5094 1 = some false :=
      isSimilar_of_gate (show |(-2 : ℝ) - (-1/2)| * 627.5094 > 627.5094 by
        norm_num [abs_of_nonneg, abs_of_nonpos])
    have hm21 : mergeInto 627.5094 1 (oneC (-2)) [oneC (-1/2)] =
        .ok (false, [oneC (-1/2)]) := mergeInto_cons_sim_false hs21 rfl
    have hs22 : IsSimilarToCluster (oneC (-3/2)) (oneC (-1/2)) 627.5094 1 = some true :=
      isSimilar_oneC_true (show ¬ |(-3/2 : ℝ) - (-1/2)| * 627.5094 > 627.5094 by
        norm_num [abs_of_nonneg, abs_of_nonpos]) (by norm_num)
    have hm22 : mergeInto 627.5094 1 (oneC (-3/2)) [oneC (-1/2), oneC (-2)] =
        .ok (true, [oneC (-3/2), oneC (-2)]) := by
      rw [mergeInto_cons_sim_true hs22,
        if_pos (show (oneC (-3/2)).Energy < (oneC (-1/2)).Energy from by
          show (-3/2 : ℝ) < -1/2; norm_num)]
    have hs23 : IsSimilarToCluster (oneC 0) (oneC (-3/2)) 627.5094 1 = some false :=
      isSimilar_of_gate (show |(0 : ℝ) - (-3/2)| * 627.5094 > 627.5094 by
        norm_num [abs_of_nonneg, abs_of_nonpos])
    have hs24 : IsSimilarToCluster (oneC 0) (oneC (-2)) 627.5094 1 = some false :=
      isSimilar_of_gate (show |(0 : ℝ) - (-2)| * 627.5094 > 627.5094 by
        norm_num [abs_of_nonneg, abs_of_nonpos])
    have hm23 : mergeInto 627.5094 1 (oneC 0) [oneC (-3/2), oneC (-2)] =
        .ok (false, [oneC (-3/2), oneC (-2)]) :=
      mergeInto_cons_sim_false hs23 (mergeInto_cons_sim_false hs24 rfl)
    rw [DoubleCheck_cons (by norm_num) (by norm_num), dcLoop_cons_notfound hm21,
      show ([oneC (-1/2)] ++ [oneC (-2)] : List Cluster) = [oneC (-1/2), oneC (-2)] from rfl,
      dcLoop_cons_found hm22, dcLoop_cons_notfound hm23,
      show ([oneC (-3/2), oneC (-2)] ++ [oneC 0] : List Cluster)
        = [oneC (-3/2), oneC (-2), oneC 0] from rfl,
      dcLoop_nil]
    show Except.ok (SortCluster [oneC (-3/2), oneC (-2), oneC 0]) = _
    have hsort : SortCluster [oneC (-3/2), oneC (-2), oneC 0] =
        [oneC (-2), oneC (-3/2), oneC 0] := by
      show List.orderedInsert clusterLE (oneC (-3/2))
        (List.orderedInsert clusterLE (oneC (-2))
          (List.orderedInsert clusterLE (oneC 0) [])) = _
      rw [List.orderedInsert_nil,
        List.orderedInsert, if_pos (show clusterLE (oneC (-2)) (oneC 0) from by
          show (-2 : ℝ) ≤ 0; norm_num),
        List.orderedInsert, if_neg (show ¬ clusterLE (oneC (-3/2)) (oneC (-2)) from by
          show ¬ (-3/2 : ℝ) ≤ -2; norm_num),
        List.orderedInsert, if_pos (show clusterLE (oneC (-3/2)) (oneC 0) from by
          show (-3/2 : ℝ) ≤ 0; norm_num)]
    rw [hsort]

/-- C8 amended: the similarity oracle itself is monotone in the
thresholds (a pair similar at tighter thresholds stays similar at
looser ones), but the representative count of the greedy scan is not
antitone in the thresholds. -/
theorem claim_C8_amended (a b : Cluster) (e1 e2 d1 d2 : ℝ)
    (hn : a.Atoms.length = b.Atoms.length) (he : e1 ≤ e2) (hd : d1 ≤ d2)
    (h : IsSimilarToCluster a b e1 d1 = some true) :
    IsSimilarToCluster a b e2 d2 = some true := by
  rw [isSimilar_eq_spec hn] at h ⊢
  unfold spec_is_similar at h ⊢
  by_cases hg1 : |a.Energy - b.Energy| * 627.5094 > e1
  · rw [if_pos hg1] at h
    simp at h
  · rw [if_neg hg1] at h
    have hg2 : ¬ |a.Energy - b.Energy| * 627.5094 > e2 :=
      not_lt.mpr (le_trans (not_lt.mp hg1) he)
    rw [if_neg hg2]
    by_cases hm : maxListAbsDiff (distanceFingerprint a) (distanceFingerprint b) ≤ d1
    · rw [if_pos (le_trans hm hd)]
    · rw [if_neg hm] at h
      simp at h

/-- Witness for amended C8 at a concrete pair and threshold pairs. -/
theorem claim_C8_witness :
    (oneC 4).Atoms.length = (oneC 4).Atoms.length ∧ (0:ℝ) ≤ 1 ∧ (0:ℝ) ≤ 1 ∧
    IsSimilarToCluster (oneC 4) (oneC 4) 0 0 = some true ∧
    IsSimilarToCluster (oneC 4) (oneC 4) 1 1 = some true := by
  have h0 : IsSimilarToCluster (oneC 4) (oneC 4) 0 0 = some true :=
    isSimilar_oneC_true (show ¬ |(4 : ℝ) - 4| * 627.5094 > 0 by norm_num)
      (le_refl 0)
  exact ⟨rfl, by norm_num, by norm_num, h0,
    claim_C8_amended (oneC 4) (oneC 4) 0 1 0 1 rfl (by norm_num) (by norm_num) h0⟩

end Kybnmr
